import Mathlib

/-!
Verification of the zen-connect authentication core

Shallow embedding of the authentication logic of the zen-connect-api repository and
identity-reconciliation logic, with theorems checking the natural-language
specification against the source.

Go strings are modelled as lists of byte values (`GoStr := List Nat`), so that
the Go `len` is `List.length` and byte-level operations (`strings.Split`,
`hex`, cookie byte flips) are exact.  Wall-clock times are integers (seconds);
every call to `time.Now()` in the source becomes an explicit `now` parameter,
and every `uuid.New()` becomes an explicit `newId` parameter.
-/

namespace ZenConnect

/-- Go string as a list of byte values. -/
abbrev GoStr := List Nat

/-- ASCII whitespace recognised by `strings.TrimSpace` (ASCII fragment). -/
def isSpaceB (b : Nat) : Bool :=
  b == 32 || b == 9 || b == 10 || b == 11 || b == 12 || b == 13

/-- Embedding of `strings.TrimSpace` (ASCII fragment): drop leading and
trailing whitespace bytes. -/
def trimSpace (s : GoStr) : GoStr :=
  ((s.dropWhile isSpaceB).reverse.dropWhile isSpaceB).reverse

/-- Embedding of `strings.ToLower` on a single ASCII byte. -/
def lowerB (b : Nat) : Nat :=
  if 65 ≤ b ∧ b ≤ 90 then b + 32 else b

/-- Embedding of `strings.ToLower` (ASCII fragment). -/
def toLowerStr (s : GoStr) : GoStr := s.map lowerB

/-- Embedding of `strings.Split(s, sep)` for a one-byte separator: splits at
every occurrence of `sep`. -/
def splitOnB (sep : Nat) : GoStr → List GoStr
  | [] => [[]]
  | b :: rest =>
    if b = sep then [] :: splitOnB sep rest
    else
      match splitOnB sep rest with
      | [] => [[b]]
      | h :: t => (b :: h) :: t

/-- byte classes of the email regex `^[a-zA-Z0-9._+-]+@[a-zA-Z0-9.-]+\.[a-zA-Z]{2,}$` -/
def isAlphaB (b : Nat) : Bool :=
  (65 ≤ b && b ≤ 90) || (97 ≤ b && b ≤ 122)

def isDigitB (b : Nat) : Bool := 48 ≤ b && b ≤ 57

def isLocalChar (b : Nat) : Bool :=
  isAlphaB b || isDigitB b || b == 46 || b == 95 || b == 43 || b == 45

def isDomainChar (b : Nat) : Bool :=
  isAlphaB b || isDigitB b || b == 46 || b == 45

/-- Matching of the domain tail `[a-zA-Z0-9.-]+\.[a-zA-Z]{2,}$`: the suffix
after the last dot must be alphabetic of length ≥ 2, and a nonempty
domain-charset prefix must precede that dot. -/
def domainMatch (d : GoStr) : Bool :=
  let revTail := d.reverse.takeWhile (fun b => b ≠ 46)
  if revTail.length = d.length then false    -- no dot at all
  else
    let zs := revTail.reverse                 -- part after the last dot
    let ys := (d.reverse.drop (revTail.length + 1)).reverse
    decide (ys ≠ []) && ys.all isDomainChar && zs.all isAlphaB && decide (2 ≤ zs.length)

/-- Embedding of the regex test
`^[a-zA-Z0-9._+-]+@[a-zA-Z0-9.-]+\.[a-zA-Z]{2,}$` : since none of the
character classes contains `@`, a match forces exactly one `@`. -/
def matchEmailRegex (e : GoStr) : Bool :=
  match splitOnB 64 e with
  | [l, d] => decide (l ≠ []) && l.all isLocalChar && domainMatch d
  | _ => false

/-- `strings.Contains(s, "..")` specialised to consecutive dots. -/
def hasDoubleDot : GoStr → Bool
  | a :: b :: rest => (a == 46 && b == 46) || hasDoubleDot (b :: rest)
  | _ => false

def startsWithDot (s : GoStr) : Bool :=
  match s with
  | 46 :: _ => true
  | _ => false

def endsWithDot (s : GoStr) : Bool := startsWithDot s.reverse

/-- Embedding of `isValidEmail` from internal/user/domain/email.go: regex
match, then the consecutive-dot check, then per-part dot placement checks. -/
def isValidEmail (email : GoStr) : Bool :=
  if ¬ matchEmailRegex email then false
  else if hasDoubleDot email then false
  else
    match splitOnB 64 email with
    | [localPart, domainPart] =>
      if startsWithDot localPart || endsWithDot localPart then false
      else if startsWithDot domainPart || endsWithDot domainPart
              || hasDoubleDot domainPart then false
      else true
    | _ => false

/-- Errors of `NewEmail`. -/
inductive EmailErr where
  | emptyInput      -- "email cannot be empty"
  | invalidFormat   -- "invalid email format"
  deriving DecidableEq, Repr

/-- Embedding of `NewEmail` from internal/user/domain/email.go: reject
blank input, normalize by trimming and lowercasing, then validate; the stored
value is the normalized string. -/
def NewEmail (email : GoStr) : Except EmailErr GoStr :=
  if trimSpace email = [] then .error .emptyInput
  else
    let normalizedEmail := toLowerStr (trimSpace email)
    if ¬ isValidEmail normalizedEmail then .error .invalidFormat
    else .ok normalizedEmail

/-! ## Password value object (internal/user/domain, password part of events.go doc) -/
/-- `MinLength` constant from the source. -/
def MinLength : Nat := 8

/-- `uppercasePattern` = regex `[A-Z]` applied to a byte. -/
def hasUpperB (p : GoStr) : Bool := p.any (fun b => 65 ≤ b && b ≤ 90)

/-- `lowercasePattern` = regex `[a-z]`. -/
def hasLowerB (p : GoStr) : Bool := p.any (fun b => 97 ≤ b && b ≤ 122)

/-- `digitPattern` = regex `\d`. -/
def hasDigitStrB (p : GoStr) : Bool := p.any isDigitB

/-- membership in the fixed special-character class `[!@#$%^&*(),.?":{}|<>]`. -/
def isSpecialChar (b : Nat) : Bool :=
  b == 33 || b == 64 || b == 35 || b == 36 || b == 37 || b == 94 || b == 38 || b == 42 ||
  b == 40 || b == 41 || b == 44 || b == 46 || b == 63 || b == 34 || b == 58 ||
  b == 123 || b == 125 || b == 124 || b == 60 || b == 62

/-- `specialCharPattern` applied to the whole string. -/
def hasSpecialB (p : GoStr) : Bool := p.any isSpecialChar

/-- Errors of `NewPassword`, in source order. -/
inductive PwErr where
  | tooShort
  | missingUppercase
  | missingLowercase
  | missingDigit
  | missingSpecialChar
  deriving DecidableEq, Repr

/-- Embedding of `NewPassword`: the five checks exactly in source order
(`len < MinLength`, uppercase, lowercase, digit, special). -/
def NewPassword (password : GoStr) : Except PwErr GoStr :=
  if password.length < MinLength then .error .tooShort
  else if ¬ hasUpperB password then .error .missingUppercase
  else if ¬ hasLowerB password then .error .missingLowercase
  else if ¬ hasDigitStrB password then .error .missingDigit
  else if ¬ hasSpecialB password then .error .missingSpecialChar
  else .ok password

/-- Spec-side reading of C7: whether a given rule is satisfied. -/
def pwRuleOk (p : GoStr) : PwErr → Bool
  | .tooShort => decide (MinLength ≤ p.length)
  | .missingUppercase => hasUpperB p
  | .missingLowercase => hasLowerB p
  | .missingDigit => hasDigitStrB p
  | .missingSpecialChar => hasSpecialB p

/-- Spec-side priority order of the rules. -/
def pwPriority : List PwErr :=
  [.tooShort, .missingUppercase, .missingLowercase, .missingDigit, .missingSpecialChar]

/-- Spec-side "first failing rule wins". -/
def firstFailingRule (p : GoStr) : Option PwErr :=
  pwPriority.find? (fun e => ! pwRuleOk p e)

/-! ## Password hashing (Hash / VerifyHash)

`Hash` draws a random 16-byte salt and computes
`hex(salt) ++ ":" ++ hex(pbkdf2(password, salt, 10000, 64, sha512))`.
The salt and the PBKDF2 function are external inputs of the model: the salt
becomes an explicit argument and the key-derivation function `kdf` a function
argument (the source imports it from `golang.org/x/crypto/pbkdf2`). -/
def hexDigitB (n : Nat) : Nat := if n < 10 then 48 + n else 87 + n

/-- Embedding of `hex.EncodeToString` (lowercase hex). -/
def hexEncode : List Nat → GoStr
  | [] => []
  | b :: rest => hexDigitB (b / 16) :: hexDigitB (b % 16) :: hexEncode rest

def hexDigitVal (c : Nat) : Option Nat :=
  if 48 ≤ c ∧ c ≤ 57 then some (c - 48)
  else if 97 ≤ c ∧ c ≤ 102 then some (c - 87)
  else if 65 ≤ c ∧ c ≤ 70 then some (c - 55)
  else none

/-- Embedding of `hex.DecodeString`. -/
def hexDecode : GoStr → Option (List Nat)
  | [] => some []
  | [_] => none
  | c1 :: c2 :: rest => do
      let h ← hexDigitVal c1
      let l ← hexDigitVal c2
      let r ← hexDecode rest
      pure ((16 * h + l) :: r)

/-- Embedding of `Password.Hash`: `salt:hash` format. 58 is the byte of `:`. -/
def Hash (kdf : GoStr → List Nat → List Nat) (pw : GoStr) (salt : List Nat) : GoStr :=
  hexEncode salt ++ 58 :: hexEncode (kdf pw salt)

/-- Embedding of `VerifyHash`: split on `:`, require exactly two parts,
hex-decode both, re-derive with the stored salt and compare; any malformed
stored hash yields `false`. -/
def VerifyHash (kdf : GoStr → List Nat → List Nat) (password hash : GoStr) : Bool :=
  match splitOnB 58 hash with
  | [saltHex, hashHex] =>
    match hexDecode saltHex, hexDecode hashHex with
    | some salt, some originalHash => decide (kdf password salt = originalHash)
    | _, _ => false
  | _ => false

/-! ## Session cookie store (internal/infrastructure/session/cookie_store.go)

`SessionData` carries `{uid, sub, email, name, exp}`.  The gorilla
`securecookie` encoder is the one external component: it is modelled as an
idealized authenticated codec (serialize, then append a secret-keyed
checksum tag; decoding verifies the tag and re-parses), which realizes the
AEAD contract the source relies on (decode fails on a wrong secret or on any
modified byte).  Times are unix seconds as `Int`. -/
structure SessionData where
  userID : GoStr
  auth0UserID : GoStr
  email : GoStr
  name : GoStr
  expiresAt : Int
  deriving DecidableEq, Repr

def encField (f : GoStr) : List Nat := f.length :: f

def encInt (i : Int) : List Nat := [if i < 0 then 1 else 0, i.natAbs]

def serializeSession (d : SessionData) : List Nat :=
  encField d.userID ++ encField d.auth0UserID ++ encField d.email ++
    encField d.name ++ encInt d.expiresAt

def readField : List Nat → Option (GoStr × List Nat)
  | [] => none
  | n :: rest => if n ≤ rest.length then some (rest.take n, rest.drop n) else none

def readInt : List Nat → Option Int
  | [s, m] =>
    if s = 1 then some (-(m : Int)) else if s = 0 then some (m : Int) else none
  | _ => none

def deserializeSession (bs : List Nat) : Option SessionData := do
  let (uid, r1) ← readField bs
  let (sub, r2) ← readField r1
  let (email, r3) ← readField r2
  let (name, r4) ← readField r3
  let exp ← readInt r4
  pure ⟨uid, sub, email, name, exp⟩

def sumBytes : List Nat → Nat
  | [] => 0
  | b :: rest => b + sumBytes rest

/-- keyed integrity tag of the idealized authenticated codec. -/
def macTag (key : GoStr) (payload : List Nat) : Nat :=
  sumBytes key + sumBytes payload

def sealCookie (key : GoStr) (payload : List Nat) : List Nat :=
  payload ++ [macTag key payload]

def openCookie (key : GoStr) (bs : List Nat) : Option (List Nat) :=
  match bs.reverse with
  | [] => none
  | tag :: revPayload =>
    let payload := revPayload.reverse
    if tag = macTag key payload then some payload else none

/-- cookie SameSite attribute values. -/
inductive SameSite where
  | strictMode
  | laxMode
  | noneMode
  deriving DecidableEq, Repr

structure CookieStore where
  secretKey : GoStr
  cookieName : GoStr
  cookieDomain : GoStr
  cookiePath : GoStr
  cookieSecure : Bool
  cookieHTTPOnly : Bool
  cookieSameSite : SameSite
  maxAge : Int
  deriving Repr

/-- Embedding of `os.Getenv`: the environment maps keys to byte strings,
with `[]` for an unset variable. -/
abbrev Env := String → GoStr

-- environment keys recognised by the cookie store configuration
def evSecret : String := "SESSION_SECRET"

def evCookieName : String := "SESSION_COOKIE_NAME"

def evCookieDomain : String := "SESSION_COOKIE_DOMAIN"

def evCookiePath : String := "SESSION_COOKIE_PATH"

def evCookieSecure : String := "SESSION_COOKIE_SECURE"

def evCookieHTTPOnly : String := "SESSION_COOKIE_HTTP_ONLY"

def evCookieSameSite : String := "SESSION_COOKIE_SAME_SITE"

def evMaxAge : String := "SESSION_MAX_AGE"

def getEnvOrDefault (env : Env) (key : String) (defaultValue : GoStr) : GoStr :=
  if env key ≠ [] then env key else defaultValue

/-- Embedding of `strconv.ParseBool`. -/
def parseBool (s : GoStr) : Option Bool :=
  if s = [49] ∨ s = [116] ∨ s = [84] ∨ s = [116,114,117,101] ∨
      s = [84,82,85,69] ∨ s = [84,114,117,101] then some true
  else if s = [48] ∨ s = [102] ∨ s = [70] ∨ s = [102,97,108,115,101] ∨
      s = [70,65,76,83,69] ∨ s = [70,97,108,115,101] then some false
  else none

def parseDigits (s : GoStr) : Option Nat :=
  s.foldl (fun acc b =>
    acc.bind fun n => if 48 ≤ b ∧ b ≤ 57 then some (10 * n + (b - 48)) else none)
    (some 0)

/-- Embedding of `strconv.Atoi` (unbounded). -/
def atoi (s : GoStr) : Option Int :=
  match s with
  | [] => none
  | 43 :: rest => if rest = [] then none else (parseDigits rest).map Int.ofNat
  | 45 :: rest => if rest = [] then none else (parseDigits rest).map (fun n => -(n : Int))
  | _ => (parseDigits s).map Int.ofNat

def getEnvBoolOrDefault (env : Env) (key : String) (defaultValue : Bool) : Bool :=
  if env key ≠ [] then
    match parseBool (env key) with
    | some parsed => parsed
    | none => defaultValue
  else defaultValue

def getEnvIntOrDefault (env : Env) (key : String) (defaultValue : Int) : Int :=
  if env key ≠ [] then
    match atoi (env key) with
    | some parsed => parsed
    | none => defaultValue
  else defaultValue

inductive ConfigErr where
  | missingSecret     -- "SESSION_SECRET environment variable is required"
  | badSecretLength   -- "SESSION_SECRET must be exactly 32 bytes"
  deriving DecidableEq, Repr

-- byte spellings of the configuration defaults
def zenSessionStr : GoStr := [122,101,110,95,115,101,115,115,105,111,110]  -- zen_session

def localhostStr : GoStr := [108,111,99,97,108,104,111,115,116]

def slashStr : GoStr := [47]

def strictStr : GoStr := [115,116,114,105,99,116]

def noneStr : GoStr := [110,111,110,101]

def laxStr : GoStr := [108,97,120]

/-- Embedding of `NewCookieStore`: require a nonempty `SESSION_SECRET` of
exactly 32 bytes, then read the cookie attribute configuration with its
defaults. -/
def NewCookieStore (env : Env) : Except ConfigErr CookieStore :=
  let secretKey := env evSecret
  if secretKey = [] then .error .missingSecret
  else if secretKey.length ≠ 32 then .error .badSecretLength
  else
    let sameSiteStr := getEnvOrDefault env evCookieSameSite laxStr
    let sameSite :=
      if sameSiteStr = strictStr then SameSite.strictMode
      else if sameSiteStr = noneStr then SameSite.noneMode
      else SameSite.laxMode
    .ok {
      secretKey := secretKey
      cookieName := getEnvOrDefault env evCookieName zenSessionStr
      cookieDomain := getEnvOrDefault env evCookieDomain localhostStr
      cookiePath := getEnvOrDefault env evCookiePath slashStr
      cookieSecure := getEnvBoolOrDefault env evCookieSecure false
      cookieHTTPOnly := getEnvBoolOrDefault env evCookieHTTPOnly true
      cookieSameSite := sameSite
      maxAge := getEnvIntOrDefault env evMaxAge 86400
    }

/-- Modelled from main.go control flow (cmd/zen-connect/main.go): a failed
`NewCookieStore` hits `logger.Fatal`, which terminates the process before
`e.Start` is ever reached, so no request is served. -/
def startupServes (env : Env) : Bool :=
  match NewCookieStore env with
  | .error _ => false
  | .ok _ => true

/-- Embedding of `SetSession`: overwrite `data.ExpiresAt` with
`now + maxAge` seconds, then encode; returns the stored payload and the
cookie value. -/
def SetSession (cs : CookieStore) (now : Int) (data : SessionData) :
    SessionData × List Nat :=
  let stored : SessionData := { data with expiresAt := now + cs.maxAge }
  (stored, sealCookie cs.secretKey (serializeSession stored))

inductive SessErr where
  | cookieNotFound  -- "session cookie not found"
  | decodeError     -- "failed to decode session"
  | expired         -- "session has expired"
  deriving DecidableEq, Repr

/-- Embedding of `GetSession`: missing cookie, then authenticated decode,
then the expiry check `time.Now().After(ExpiresAt)` (strict). -/
def GetSession (cs : CookieStore) (now : Int) (cookieVal : Option (List Nat)) :
    Except SessErr SessionData :=
  match cookieVal with
  | none => .error .cookieNotFound
  | some v =>
    match (openCookie cs.secretKey v).bind deserializeSession with
    | none => .error .decodeError
    | some data =>
      if now > data.expiresAt then .error .expired else .ok data

/-- Embedding of the session-data construction in `HandleCallback`
(internal/infrastructure/auth0/callback_handler.go), restricted to the
fields of the cookie payload: the ExpiresAt slot receives the OAuth token
expiry `oauth2Token.Expiry`. -/
def callbackSessionData (uid sub email name : GoStr) (tokenExpiry : Int) : SessionData :=
  ⟨uid, sub, email, name, tokenExpiry⟩

/-- fixed store and payload used by concrete checks. -/
def testStore : CookieStore :=
  { secretKey := List.replicate 32 107
    cookieName := zenSessionStr
    cookieDomain := localhostStr
    cookiePath := slashStr
    cookieSecure := false
    cookieHTTPOnly := true
    cookieSameSite := .laxMode
    maxAge := 86400 }

def testPayload : SessionData := ⟨[117], [115], [101], [110], 999⟩

def env32 : Env := fun k => if k = evSecret then List.replicate 32 97 else []

def env31 : Env := fun k => if k = evSecret then List.replicate 31 97 else []

/-! ## User aggregate — flat Auth0-linked model (internal/user/domain/user.go
variant in unnamed/part_007) and repositories -/
inductive DomainEvent where
  | userRegistered (aggregateID : GoStr) (email : GoStr) (occurredAt : Int)
  | emailVerified (aggregateID : GoStr) (email : GoStr) (verifiedAt : Int)
  | passwordChanged (aggregateID : GoStr) (changedAt : Int)
  | userProfileUpdated (aggregateID : GoStr) (updatedAt : Int)
  deriving DecidableEq, Repr

structure Profile where
  displayName : GoStr
  bio : GoStr
  profileImageURL : GoStr
  deriving DecidableEq, Repr

structure User where
  id : GoStr
  auth0UserID : GoStr
  email : GoStr          -- the normalized Email value
  profile : Profile
  emailVerified : Bool
  createdAt : Int
  verifiedAt : Option Int
  updatedAt : Int
  events : List DomainEvent
  deriving DecidableEq, Repr

/-- Embedding of `NewUser(auth0UserID, email, displayName, emailVerified)`:
fresh id and clock are explicit arguments. -/
def NewUser (now : Int) (newId : GoStr) (auth0UserID : GoStr) (email : GoStr)
    (displayName : GoStr) (emailVerified : Bool) : User :=
  { id := newId
    auth0UserID := auth0UserID
    email := email
    profile := ⟨displayName, [], []⟩
    emailVerified := emailVerified
    createdAt := now
    verifiedAt := if emailVerified then some now else none
    updatedAt := now
    events := [.userRegistered newId email now] }

/-- Embedding of `User.UpdateProfile`: replaces the profile, bumps
updatedAt, appends a `UserProfileUpdated` event. -/
def UpdateProfile (u : User) (now : Int) (displayName bio profileImageURL : GoStr) : User :=
  { u with
    profile := ⟨displayName, bio, profileImageURL⟩
    updatedAt := now
    events := u.events ++ [.userProfileUpdated u.id now] }

/-- Embedding of `User.VerifyEmail`: idempotent; emits `EmailVerified`
only on a fresh transition. -/
def VerifyEmail (u : User) (now : Int) : User :=
  if ¬ u.emailVerified then
    { u with
      emailVerified := true
      verifiedAt := some now
      updatedAt := now
      events := u.events ++ [.emailVerified u.id u.email now] }
  else u

inductive RepoErr where
  | userNotFound     -- domain.ErrUserNotFound
  | uniqueViolation  -- a unique-index violation surfaced by the database
  deriving DecidableEq, Repr

/-- The `domain.UserRepository` interface. -/
structure UserRepo (σ : Type) where
  save : σ → User → Except RepoErr σ
  findByEmail : σ → GoStr → Except RepoErr User
  findByID : σ → GoStr → Except RepoErr User
  findByAuth0UserID : σ → GoStr → Except RepoErr User

/-! ### In-memory repository (internal/user/infrastructure/memory_repository.go)

Go maps become association lists with insert-or-replace update. -/
def assocSet {α : Type} (k : GoStr) (v : α) : List (GoStr × α) → List (GoStr × α)
  | [] => [(k, v)]
  | (k2, v2) :: rest => if k2 = k then (k, v) :: rest else (k2, v2) :: assocSet k v rest

def assocGet {α : Type} (k : GoStr) : List (GoStr × α) → Option α
  | [] => none
  | (k2, v) :: rest => if k2 = k then some v else assocGet k rest

structure MemRepoState where
  users : List (GoStr × User)   -- userID -> User
  emails : List (GoStr × GoStr) -- email -> userID
  deriving DecidableEq, Repr

/-- Embedding of the in-memory `Save`: store under the id and repoint the
email index; there is no error path. -/
def memSave (st : MemRepoState) (user : User) : MemRepoState :=
  { users := assocSet user.id user st.users
    emails := assocSet user.email user.id st.emails }

/-- Embedding of the in-memory `FindByEmail`. -/
def memFindByEmail (st : MemRepoState) (email : GoStr) : Except RepoErr User :=
  match assocGet email st.emails with
  | none => .error .userNotFound
  | some userID =>
    match assocGet userID st.users with
    | none => .error .userNotFound
    | some user => .ok user

/-- Embedding of the in-memory `FindByID`. -/
def memFindByID (st : MemRepoState) (id : GoStr) : Except RepoErr User :=
  match assocGet id st.users with
  | none => .error .userNotFound
  | some user => .ok user

/-! ### Postgres repository semantics (unnamed/part_004 with the schema of
migrations/001_create_users.sql)

The table is a list of user rows; `Save` is `INSERT ... ON CONFLICT (id) DO
UPDATE`, subject to the unique indexes of the schema on email and auth0_user_id;
the finders are `SELECT ... WHERE col = $1` followed by `FromSnapshot`,
which never carries events out of storage. -/
abbrev PgTable := List User

/-- `FromSnapshot` reconstruction: rehydration never emits events. -/
def fromSnapshotRow (u : User) : User := { u with events := [] }

def pgFindByAuth0UserID (t : PgTable) (sub : GoStr) : Except RepoErr User :=
  match t.find? (fun u => decide (u.auth0UserID = sub)) with
  | none => .error .userNotFound
  | some u => .ok (fromSnapshotRow u)

def pgFindByEmail (t : PgTable) (email : GoStr) : Except RepoErr User :=
  match t.find? (fun u => decide (u.email = email)) with
  | none => .error .userNotFound
  | some u => .ok (fromSnapshotRow u)

def pgFindByID (t : PgTable) (id : GoStr) : Except RepoErr User :=
  match t.find? (fun u => decide (u.id = id)) with
  | none => .error .userNotFound
  | some u => .ok (fromSnapshotRow u)

def pgSave (t : PgTable) (user : User) : Except RepoErr PgTable :=
  if t.any (fun r => decide (r.id ≠ user.id) &&
      (decide (r.email = user.email) || decide (r.auth0UserID = user.auth0UserID))) then
    .error .uniqueViolation
  else if t.any (fun r => decide (r.id = user.id)) then
    .ok (t.map (fun r => if r.id = user.id then user else r))
  else .ok (t ++ [user])

def pgRepo : UserRepo PgTable :=
  { save := pgSave
    findByEmail := pgFindByEmail
    findByID := pgFindByID
    findByAuth0UserID := pgFindByAuth0UserID }

/-! ### Service-layer reconciliation
(internal/user/application/service/user_service_impl.go) -/
structure RegisterFromAuthCommand where
  auth0UserID : GoStr
  email : GoStr
  name : GoStr
  picture : GoStr
  emailVerified : Bool
  deriving DecidableEq, Repr

inductive ServiceErr where
  | repo (e : RepoErr)
  | emailErr (e : EmailErr)
  deriving DecidableEq, Repr

/-- Embedding of `RegisterOrUpdateUserFromAuth`: look up by Auth0 user id;
if found, update the profile (bio cleared) and save; otherwise validate the
email and create a brand-new user.  There is no lookup by email. -/
def RegisterOrUpdateUserFromAuth {σ : Type} (repo : UserRepo σ) (st : σ)
    (cmd : RegisterFromAuthCommand) (now : Int) (newId : GoStr) :
    Except ServiceErr (User × σ) :=
  match repo.findByAuth0UserID st cmd.auth0UserID with
  | .ok user =>
    let updated := UpdateProfile user now cmd.name [] cmd.picture
    match repo.save st updated with
    | .error e => .error (.repo e)
    | .ok st2 => .ok (updated, st2)
  | .error e =>
    if e ≠ .userNotFound then .error (.repo e)
    else
      match NewEmail cmd.email with
      | .error ee => .error (.emailErr ee)
      | .ok email =>
        let user := NewUser now newId cmd.auth0UserID email cmd.name cmd.emailVerified
        match repo.save st user with
        | .error e2 => .error (.repo e2)
        | .ok st2 => .ok (user, st2)

/-! ### Callback-handler reconciliation
(internal/infrastructure/auth0/callback_handler.go, flat model) -/
structure Claims where
  sub : GoStr
  name : GoStr
  email : GoStr
  emailVerified : Bool
  picture : GoStr
  deriving DecidableEq, Repr

/-- Embedding of `createOrUpdateUser`: on a hit by Auth0 user id, update the
profile only when the display name differs (then name and picture are set,
bio kept), verify the email when the claim newly asserts it, save and return;
on any lookup failure create a brand-new user from the claims. -/
def createOrUpdateUser {σ : Type} (repo : UserRepo σ) (st : σ) (claims : Claims)
    (now : Int) (newId : GoStr) : Except ServiceErr (User × σ) :=
  match repo.findByAuth0UserID st claims.sub with
  | .ok existingUser =>
    let u1 := if existingUser.profile.displayName ≠ claims.name
      then UpdateProfile existingUser now claims.name existingUser.profile.bio claims.picture
      else existingUser
    let u2 := if claims.emailVerified && ¬ existingUser.emailVerified
      then VerifyEmail u1 now else u1
    match repo.save st u2 with
    | .error e => .error (.repo e)
    | .ok st2 => .ok (u2, st2)
  | .error _ =>
    match NewEmail claims.email with
    | .error ee => .error (.emailErr ee)
    | .ok email =>
      let newUser := NewUser now newId claims.sub email claims.name claims.emailVerified
      let newUser2 := if claims.picture ≠ []
        then UpdateProfile newUser now claims.name [] claims.picture else newUser
      match repo.save st newUser2 with
      | .error e => .error (.repo e)
      | .ok st2 => .ok (newUser2, st2)

/-! ### Legacy variant-based user model (unnamed/part_006) and its callback
reconciliation (unnamed/part_013), which implements the email-match
(provisional-to-active) rule. -/
structure ProvisionalUser where
  id : GoStr
  email : GoStr
  createdAt : Int
  events : List DomainEvent
  deriving DecidableEq, Repr

structure ActiveUser where
  id : GoStr
  auth0UserID : GoStr
  email : GoStr
  profile : Profile
  emailVerified : Bool
  createdAt : Int
  verifiedAt : Option Int
  updatedAt : Int
  events : List DomainEvent
  deriving DecidableEq, Repr

inductive VUser where
  | provisional (u : ProvisionalUser)
  | active (u : ActiveUser)
  deriving DecidableEq, Repr

/-- Embedding of `NewActiveUser`. -/
def NewActiveUser (now : Int) (newId : GoStr) (auth0UserID email displayName : GoStr)
    (emailVerified : Bool) : ActiveUser :=
  { id := newId
    auth0UserID := auth0UserID
    email := email
    profile := ⟨displayName, [], []⟩
    emailVerified := emailVerified
    createdAt := now
    verifiedAt := if emailVerified then some now else none
    updatedAt := now
    events := [.userRegistered newId email now] }

/-- Embedding of `ProvisionalUser.ActivateUser`: keeps the id, links the
Auth0 subject, carries over verification and display name from the claims,
and appends an `EmailVerified` event. -/
def ActivateUser (p : ProvisionalUser) (auth0UserID displayName : GoStr)
    (emailVerified : Bool) (now : Int) : ActiveUser :=
  { id := p.id
    auth0UserID := auth0UserID
    email := p.email
    profile := ⟨displayName, [], []⟩
    emailVerified := emailVerified
    createdAt := p.createdAt
    verifiedAt := if emailVerified then some now else none
    updatedAt := now
    events := p.events ++ [.emailVerified p.id p.email now] }

/-- Embedding of `ActiveUser.UpdateProfile` (part_006: mutates the profile
and updatedAt; appends no event). -/
def ActiveUser.updateProfileA (a : ActiveUser) (now : Int)
    (displayName bio profileImageURL : GoStr) : ActiveUser :=
  { a with profile := ⟨displayName, bio, profileImageURL⟩, updatedAt := now }

/-- Embedding of `ActiveUser.UpdateEmail`. -/
def ActiveUser.updateEmailA (a : ActiveUser) (now : Int) (email : GoStr) : ActiveUser :=
  { a with email := email, updatedAt := now }

/-- Embedding of `ActiveUser.VerifyEmail`. -/
def ActiveUser.verifyEmailA (a : ActiveUser) (now : Int) : ActiveUser :=
  if ¬ a.emailVerified then
    { a with
      emailVerified := true
      verifiedAt := some now
      updatedAt := now
      events := a.events ++ [.emailVerified a.id a.email now] }
  else a

/-- Repository interface over the variant model. -/
structure VRepo (σ : Type) where
  save : σ → VUser → Except RepoErr σ
  findByEmail : σ → GoStr → Except RepoErr VUser
  findByAuth0UserID : σ → GoStr → Except RepoErr VUser

/-- Embedding of the legacy `createOrUpdateUser` (unnamed/part_013): rule 1
(linked user found and active → update differing fields, save), rule 2
(unlinked provisional user with matching email → activate, save), rule 3
(create a new active user from the claims, save). -/
def createOrUpdateUserLegacy {σ : Type} (repo : VRepo σ) (st : σ) (claims : Claims)
    (now : Int) (newId : GoStr) : Except ServiceErr (VUser × σ) :=
  match repo.findByAuth0UserID st claims.sub with
  | .ok (.active a) =>
    let step1 : Except ServiceErr ActiveUser :=
      if a.email ≠ claims.email then
        match NewEmail claims.email with
        | .error ee => .error (.emailErr ee)
        | .ok em => .ok (a.updateEmailA now em)
      else .ok a
    match step1 with
    | .error e => .error e
    | .ok a1 =>
      let a2 := if a1.profile.displayName ≠ claims.name
        then a1.updateProfileA now claims.name a1.profile.bio claims.picture else a1
      let a3 := if claims.emailVerified && ¬ a2.emailVerified
        then a2.verifyEmailA now else a2
      match repo.save st (.active a3) with
      | .error e => .error (.repo e)
      | .ok st2 => .ok (.active a3, st2)
  | _ =>
    match NewEmail claims.email with
    | .error ee => .error (.emailErr ee)
    | .ok email =>
      match repo.findByEmail st email with
      | .ok (.provisional p) =>
        let a := ActivateUser p claims.sub claims.name claims.emailVerified now
        let a2 := if claims.picture ≠ []
          then a.updateProfileA now claims.name [] claims.picture else a
        match repo.save st (.active a2) with
        | .error e => .error (.repo e)
        | .ok st2 => .ok (.active a2, st2)
      | _ =>
        let a := NewActiveUser now newId claims.sub email claims.name claims.emailVerified
        let a2 := if claims.picture ≠ []
          then a.updateProfileA now claims.name [] claims.picture else a
        match repo.save st (.active a2) with
        | .error e => .error (.repo e)
        | .ok st2 => .ok (.active a2, st2)

def countEmailVerified (events : List DomainEvent) : Nat :=
  events.countP (fun e =>
    match e with
    | .emailVerified _ _ _ => true
    | _ => false)

/-! ## Concrete fixtures -/
def aliceEmailStr : GoStr := [97,64,101,120,97,109,112,108,101,46,99,111,109] -- a@example.com

def idpSubStr : GoStr := [105,100,112,124,97,98,99,49,50,51]                  -- idp|abc123

def aliceNameStr : GoStr := [65,108,105,99,101]                               -- Alice

def oldPicStr : GoStr := [111,108,100]

def newPicStr : GoStr := [110,101,119]

/-- a stored user with email a@example.com not linked to any subject id. -/
def unlinkedAlice : User :=
  { id := [117,49]
    auth0UserID := []
    email := aliceEmailStr
    profile := ⟨[], [], []⟩
    emailVerified := false
    createdAt := 0
    verifiedAt := none
    updatedAt := 0
    events := [] }

def c1Cmd : RegisterFromAuthCommand :=
  { auth0UserID := idpSubStr
    email := aliceEmailStr
    name := aliceNameStr
    picture := []
    emailVerified := true }

/-! ## C2: reconciliation for an already-linked user -/
def linkedAlice : User :=
  { id := [117,49]
    auth0UserID := idpSubStr
    email := aliceEmailStr
    profile := ⟨aliceNameStr, [98,105,111], oldPicStr⟩
    emailVerified := true
    createdAt := 0
    verifiedAt := some 0
    updatedAt := 0
    events := [] }

def c2Claims : Claims :=
  { sub := idpSubStr
    name := aliceNameStr
    email := aliceEmailStr
    emailVerified := true
    picture := newPicStr }

def c2bClaims : Claims :=
  { sub := idpSubStr
    name := [66,111,98]     -- Bob: display name differs
    email := aliceEmailStr
    emailVerified := true
    picture := newPicStr }

/-! ## C6: email uniqueness at the persistence boundary -/
def dupBob : User :=
  { id := [117,50]
    auth0UserID := [115,50]
    email := aliceEmailStr
    profile := ⟨[], [], []⟩
    emailVerified := false
    createdAt := 0
    verifiedAt := none
    updatedAt := 0
    events := [] }

/-! ## C4: CSRF state on login and callback
(internal/auth/interfaces/routes.go, internal/shared/interfaces/auth0_handler.go) -/
structure OAuth2Config where
  clientID : GoStr
  redirectURL : GoStr
  scopes : List GoStr
  deriving DecidableEq, Repr

/-- `oauth2.Config.AuthCodeURL`: the provider authorization URL as
structured data carrying the state parameter. -/
structure AuthURL where
  clientID : GoStr
  redirectURI : GoStr
  scopes : List GoStr
  state : GoStr
  deriving DecidableEq, Repr

def GetLoginURL (cfg : OAuth2Config) (state : GoStr) : AuthURL :=
  { clientID := cfg.clientID
    redirectURI := cfg.redirectURL
    scopes := cfg.scopes
    state := state }

def stateLiteral : GoStr := [115,116,97,116,101]  -- the hardcoded "state"

structure RequestInfo where
  userAgent : GoStr
  remoteAddr : GoStr
  deriving DecidableEq, Repr

/-- Embedding of `SignIn` (GET /auth/login): the state passed to the
authorization URL is the hardcoded literal, whatever the request. -/
def SignIn (cfg : OAuth2Config) (req : RequestInfo) : AuthURL :=
  GetLoginURL cfg stateLiteral

structure CallbackQuery where
  code : GoStr
  state : GoStr
  errorParam : GoStr
  errorDescription : GoStr
  deriving DecidableEq, Repr

inductive CallbackAction where
  | redirectProviderError (err desc : GoStr)
  | redirectNoCode
  | exchange (code : GoStr)
  deriving DecidableEq, Repr

/-- Embedding of the `Callback` handler decision flow: provider error →
error redirect; missing code → no_code redirect; otherwise proceed straight
to the code exchange.  The returned state is logged but never compared with
any stored per-request value. -/
def CallbackDecision (q : CallbackQuery) : CallbackAction :=
  if q.errorParam ≠ [] then .redirectProviderError q.errorParam q.errorDescription
  else if q.code = [] then .redirectNoCode
  else .exchange q.code

def cfg0 : OAuth2Config := { clientID := [99,105,100], redirectURL := [47,99,98], scopes := [] }

/-! ## Theorems -/

/-- Supporting: the service-layer variant (`RegisterOrUpdateUserFromAuth`)
handles an already-linked user differently from the callback handler: it
unconditionally replaces the profile with (claims name, empty bio, claims
picture) and never touches emailVerified. -/
theorem registerOrUpdate_linked_support {σ : Type} (repo : UserRepo σ) (st : σ)
    (cmd : RegisterFromAuthCommand) (now : Int) (newId : GoStr) (u : User) (st2 : σ)
    (hfind : repo.findByAuth0UserID st cmd.auth0UserID = .ok u)
    (hsave : repo.save st (UpdateProfile u now cmd.name [] cmd.picture) = .ok st2) :
    RegisterOrUpdateUserFromAuth repo st cmd now newId =
      .ok (UpdateProfile u now cmd.name [] cmd.picture, st2) ∧
    (UpdateProfile u now cmd.name [] cmd.picture).profile = ⟨cmd.name, [], cmd.picture⟩ ∧
    (UpdateProfile u now cmd.name [] cmd.picture).emailVerified = u.emailVerified ∧
    (UpdateProfile u now cmd.name [] cmd.picture).id = u.id := by
  refine ⟨?_, rfl, rfl, rfl⟩
  unfold RegisterOrUpdateUserFromAuth
  rw [hfind]
  show (match repo.save st (UpdateProfile u now cmd.name [] cmd.picture) with
    | .error e => Except.error (ServiceErr.repo e)
    | .ok st3 => Except.ok (UpdateProfile u now cmd.name [] cmd.picture, st3)) = _
  rw [hsave]

example : NewEmail [97,64,101,120,46,99] = .error .invalidFormat := rfl

example :
    NewEmail [32,65,64,69,120,46,99,111,109] =
      .ok [97,64,101,120,46,99,111,109] := rfl

theorem lowerB_lowerB (b : Nat) : lowerB (lowerB b) = lowerB b := by
  unfold lowerB; split_ifs with h1 h2 <;> omega

theorem isSpaceB_lowerB (b : Nat) : isSpaceB (lowerB b) = isSpaceB b := by
  unfold lowerB
  split_ifs with h
  · have h1 : isSpaceB (b + 32) = false := by
      simp only [isSpaceB, Bool.or_eq_false_iff, beq_eq_false_iff_ne, ne_eq]; omega
    have h2 : isSpaceB b = false := by
      simp only [isSpaceB, Bool.or_eq_false_iff, beq_eq_false_iff_ne, ne_eq]; omega
    rw [h1, h2]
  · rfl

theorem toLowerStr_idem (s : GoStr) : toLowerStr (toLowerStr s) = toLowerStr s := by
  unfold toLowerStr
  rw [List.map_map]
  exact List.map_congr_left fun b _ => lowerB_lowerB b

theorem dropWhile_isSpaceB_map_lowerB (s : GoStr) :
    (s.map lowerB).dropWhile isSpaceB = (s.dropWhile isSpaceB).map lowerB := by
  have hfun : isSpaceB ∘ lowerB = isSpaceB := funext fun b => isSpaceB_lowerB b
  rw [List.dropWhile_map, hfun]

theorem trimSpace_toLowerStr (s : GoStr) :
    trimSpace (toLowerStr s) = toLowerStr (trimSpace s) := by
  unfold trimSpace toLowerStr
  rw [dropWhile_isSpaceB_map_lowerB, ← List.map_reverse, dropWhile_isSpaceB_map_lowerB,
    ← List.map_reverse]

theorem dropWhile_dropWhile (p : Nat → Bool) (l : GoStr) :
    (l.dropWhile p).dropWhile p = l.dropWhile p := by
  induction l with
  | nil => rfl
  | cons a t ih =>
    rw [List.dropWhile_cons]
    split_ifs with h
    · exact ih
    · rw [List.dropWhile_cons, if_neg (by simp [h])]

theorem dropWhile_head_false (p : Nat → Bool) (l : GoStr) (a : Nat) (t : GoStr)
    (h : l.dropWhile p = a :: t) : p a = false := by
  induction l with
  | nil => simp at h
  | cons b s ih =>
    rw [List.dropWhile_cons] at h
    split_ifs at h with hb
    · exact ih h
    · cases h; simpa using hb

theorem dropWhile_eq_self_of_head (p : Nat → Bool) (l : GoStr)
    (h : ∀ a, l.head? = some a → p a = false) : l.dropWhile p = l := by
  cases l with
  | nil => rfl
  | cons a t =>
    rw [List.dropWhile_cons, if_neg]
    simp [h a rfl]

theorem getLast?_dropWhile (p : Nat → Bool) (l : GoStr)
    (h : l.dropWhile p ≠ []) : (l.dropWhile p).getLast? = l.getLast? := by
  induction l with
  | nil => simp at h
  | cons a t ih =>
    rw [List.dropWhile_cons]
    rw [List.dropWhile_cons] at h
    split_ifs with ha
    · rw [if_pos ha] at h
      have ht : t ≠ [] := by
        intro he; subst he; simp [List.dropWhile] at h
      rw [ih h, List.getLast?_cons]
      cases hts : t.getLast? with
      | none => exact absurd (List.getLast?_eq_none_iff.mp hts) ht
      | some b => rfl
    · rfl

theorem trimSpace_idem (s : GoStr) : trimSpace (trimSpace s) = trimSpace s := by
  unfold trimSpace
  set r1 := s.dropWhile isSpaceB with hr1
  set r2 := r1.reverse.dropWhile isSpaceB with hr2
  have step1 : r2.reverse.dropWhile isSpaceB = r2.reverse := by
    apply dropWhile_eq_self_of_head
    intro a ha
    rw [List.head?_reverse] at ha
    have hr2ne : r2 ≠ [] := by
      intro he; rw [he] at ha; simp at ha
    rw [getLast?_dropWhile _ _ (hr2 ▸ hr2ne)] at ha
    rw [List.getLast?_reverse] at ha
    cases hhd : r1 with
    | nil => rw [hhd] at ha; simp at ha
    | cons b t =>
      rw [hhd] at ha
      simp only [List.head?_cons, Option.some_inj] at ha
      subst ha
      exact dropWhile_head_false _ s b t (hr1 ▸ hhd)
  rw [step1, List.reverse_reverse, dropWhile_dropWhile]

/-- C9: on any input accepted by `NewEmail`, re-running `NewEmail` on the
stored normalized value succeeds and returns the same value — normalization
(trimming then lowercasing, then format validation) is idempotent. -/
theorem newEmail_idem (x v : GoStr) (h : NewEmail x = .ok v) :
    NewEmail v = .ok v := by
  have hx1 : trimSpace x ≠ [] := by
    intro he; simp [NewEmail, he] at h
  have hx2 : isValidEmail (toLowerStr (trimSpace x)) = true := by
    by_contra hc
    simp [NewEmail, hx1, hc] at h
  have hv : v = toLowerStr (trimSpace x) := by
    simp [NewEmail, hx1, hx2] at h
    exact h.symm
  subst hv
  have htrim : trimSpace (toLowerStr (trimSpace x)) = toLowerStr (trimSpace x) := by
    rw [trimSpace_toLowerStr, trimSpace_idem]
  have hne : toLowerStr (trimSpace x) ≠ [] := by
    simpa [toLowerStr, List.map_eq_nil_iff] using hx1
  simp [NewEmail, htrim, hne, toLowerStr_idem, hx2]

/-- C9 witness: a concrete accepted input (" A@Ex.com") round-trips. -/
theorem newEmail_idem_witness :
    NewEmail [32,65,64,69,120,46,99,111,109] = .ok [97,64,101,120,46,99,111,109] ∧
      NewEmail [97,64,101,120,46,99,111,109] = .ok [97,64,101,120,46,99,111,109] :=
  ⟨rfl, newEmail_idem [32,65,64,69,120,46,99,111,109] [97,64,101,120,46,99,111,109] rfl⟩

-- "Short1!" is too short; "ValidPass123" misses a special character.
example : NewPassword [83,104,111,114,116,49,33] = .error .tooShort := rfl

example :
    NewPassword [86,97,108,105,100,80,97,115,115,49,50,51] =
      .error .missingSpecialChar := rfl

example :
    NewPassword [86,97,108,105,100,80,97,115,115,49,50,51,33] =
      .ok [86,97,108,105,100,80,97,115,115,49,50,51,33] := rfl

/-- C7: `NewPassword` succeeds iff the string satisfies all five rules
(length ≥ 8, has uppercase, lowercase, digit, special from the fixed set),
and on failure returns the error of the first failing rule in the priority
order TooShort, MissingUppercase, MissingLowercase, MissingDigit,
MissingSpecialChar. -/
theorem firstFailingRule_eq (p : GoStr) :
    firstFailingRule p =
      if p.length < MinLength then some .tooShort
      else if ¬ hasUpperB p then some .missingUppercase
      else if ¬ hasLowerB p then some .missingLowercase
      else if ¬ hasDigitStrB p then some .missingDigit
      else if ¬ hasSpecialB p then some .missingSpecialChar
      else none := by
  unfold firstFailingRule pwPriority
  by_cases h1 : p.length < MinLength
  · have h1n : p.length < 8 := h1
    rw [if_pos h1, List.find?_cons_of_pos _ (by simp [pwRuleOk, MinLength]; omega)]
  · have h1n : ¬ p.length < 8 := h1
    rw [if_neg h1, List.find?_cons_of_neg _ (by simp [pwRuleOk, MinLength]; omega)]
    by_cases h2 : hasUpperB p
    · rw [if_neg (by simp [h2]), List.find?_cons_of_neg _ (by simp [pwRuleOk, h2])]
      by_cases h3 : hasLowerB p
      · rw [if_neg (by simp [h3]), List.find?_cons_of_neg _ (by simp [pwRuleOk, h3])]
        by_cases h4 : hasDigitStrB p
        · rw [if_neg (by simp [h4]), List.find?_cons_of_neg _ (by simp [pwRuleOk, h4])]
          by_cases h5 : hasSpecialB p
          · rw [if_neg (by simp [h5]), List.find?_cons_of_neg _ (by simp [pwRuleOk, h5])]
            rfl
          · rw [if_pos (by simp [h5]), List.find?_cons_of_pos _ (by simp [pwRuleOk, h5])]
        · rw [if_pos (by simp [h4]), List.find?_cons_of_pos _ (by simp [pwRuleOk, h4])]
      · rw [if_pos (by simp [h3]), List.find?_cons_of_pos _ (by simp [pwRuleOk, h3])]
    · rw [if_pos (by simp [h2]), List.find?_cons_of_pos _ (by simp [pwRuleOk, h2])]

/-- C7: `NewPassword` succeeds iff the string satisfies all five rules
(length ≥ 8, has uppercase, lowercase, digit, special from the fixed set),
and on failure returns the error of the first failing rule in the priority
order TooShort, MissingUppercase, MissingLowercase, MissingDigit,
MissingSpecialChar. -/
theorem newPassword_spec (p : GoStr) :
    (NewPassword p = .ok p ↔ firstFailingRule p = none) ∧
    (∀ e : PwErr, NewPassword p = .error e ↔ firstFailingRule p = some e) ∧
    (firstFailingRule p = none ↔
      (MinLength ≤ p.length ∧ hasUpperB p ∧ hasLowerB p ∧ hasDigitStrB p ∧ hasSpecialB p)) := by
  rw [firstFailingRule_eq]
  unfold NewPassword
  have h8 : MinLength = 8 := rfl
  refine ⟨?_, fun e => ?_, ?_⟩ <;>
    split_ifs with h1 h2 h3 h4 h5 <;>
      simp_all [Nat.not_lt]

theorem hexDigitVal_hexDigitB (n : Nat) (h : n < 16) :
    hexDigitVal (hexDigitB n) = some n := by
  unfold hexDigitVal hexDigitB
  split_ifs <;> simp_all <;> omega

theorem hexDecode_hexEncode (l : List Nat) (h : ∀ b ∈ l, b < 256) :
    hexDecode (hexEncode l) = some l := by
  induction l with
  | nil => rfl
  | cons b rest ih =>
    have hb : b < 256 := h b (List.mem_cons_self b rest)
    have hdiv : b / 16 < 16 := by omega
    have hmod : b % 16 < 16 := by omega
    show hexDecode (hexDigitB (b / 16) :: hexDigitB (b % 16) :: hexEncode rest) = some (b :: rest)
    rw [hexDecode]
    rw [hexDigitVal_hexDigitB _ hdiv, hexDigitVal_hexDigitB _ hmod,
      ih (fun x hx => h x (List.mem_cons_of_mem b hx))]
    simp [Nat.div_add_mod]

theorem colon_not_mem_hexEncode (l : List Nat) : 58 ∉ hexEncode l := by
  induction l with
  | nil => simp [hexEncode]
  | cons b rest ih =>
    have h1 : hexDigitB (b / 16) ≠ 58 := by unfold hexDigitB; split_ifs <;> omega
    have h2 : hexDigitB (b % 16) ≠ 58 := by unfold hexDigitB; split_ifs <;> omega
    simp only [hexEncode, List.mem_cons, not_or]
    exact ⟨fun h => h1 h.symm, fun h => h2 h.symm, ih⟩

theorem splitOnB_not_mem (sep : Nat) (l : GoStr) (h : sep ∉ l) :
    splitOnB sep l = [l] := by
  induction l with
  | nil => rfl
  | cons b rest ih =>
    rw [splitOnB, if_neg (by intro he; exact h (he ▸ List.mem_cons_self b rest))]
    rw [ih (fun hm => h (List.mem_cons_of_mem b hm))]

theorem splitOnB_append (sep : Nat) (a b : GoStr) (ha : sep ∉ a) (hb : sep ∉ b) :
    splitOnB sep (a ++ sep :: b) = [a, b] := by
  induction a with
  | nil =>
    show splitOnB sep (sep :: b) = [[], b]
    rw [splitOnB, if_pos rfl, splitOnB_not_mem sep b hb]
  | cons x rest ih =>
    have hx : x ≠ sep := fun he => ha (he ▸ List.mem_cons_self x rest)
    show splitOnB sep (x :: (rest ++ sep :: b)) = [x :: rest, b]
    rw [splitOnB, if_neg hx, ih (fun hm => ha (List.mem_cons_of_mem x hm))]

/-- C8: for any deterministic key-derivation function, and any salt whose
bytes are bytes, `VerifyHash(pw, Hash(pw))` is true, and for a KDF with no
collision against `pw` at this salt (the idealized contract of PBKDF2),
`VerifyHash(pw2, Hash(pw))` is false for every `pw2 ≠ pw`. -/
theorem verifyHash_hash (kdf : GoStr → List Nat → List Nat) (pw pw2 : GoStr)
    (salt : List Nat)
    (hsalt : ∀ b ∈ salt, b < 256)
    (hout : ∀ b ∈ kdf pw salt, b < 256)
    (hinj : ∀ q, kdf q salt = kdf pw salt → q = pw) :
    VerifyHash kdf pw (Hash kdf pw salt) = true ∧
      (pw2 ≠ pw → VerifyHash kdf pw2 (Hash kdf pw salt) = false) := by
  have hsplit : splitOnB 58 (Hash kdf pw salt) = [hexEncode salt, hexEncode (kdf pw salt)] :=
    splitOnB_append 58 _ _ (colon_not_mem_hexEncode salt) (colon_not_mem_hexEncode _)
  constructor
  · unfold VerifyHash
    rw [hsplit]
    simp only [hexDecode_hexEncode salt hsalt, hexDecode_hexEncode _ hout]
    simp
  · intro hne
    unfold VerifyHash
    rw [hsplit]
    simp only [hexDecode_hexEncode salt hsalt, hexDecode_hexEncode _ hout]
    simp only [decide_eq_false_iff_not]
    intro he
    exact hne (hinj pw2 he)

/-- C8 witness: concrete KDF (identity-on-password), salt `[1,2]`,
passwords "a" and "b". -/
theorem verifyHash_hash_witness :
    VerifyHash (fun q _ => q) [97] (Hash (fun q _ => q) [97] [1,2]) = true ∧
      ([98] : GoStr) ≠ [97] ∧
      VerifyHash (fun q _ => q) [98] (Hash (fun q _ => q) [97] [1,2]) = false := by
  have h := verifyHash_hash (fun q _ => q) [97] [98] [1,2]
    (by decide) (by decide) (fun q hq => hq)
  exact ⟨h.1, by decide, h.2 (by decide)⟩

theorem readField_encField (f : GoStr) (rest : List Nat) :
    readField (encField f ++ rest) = some (f, rest) := by
  show readField (f.length :: (f ++ rest)) = some (f, rest)
  rw [readField]
  rw [if_pos (by simp)]
  rw [List.take_left, List.drop_left]

theorem readInt_encInt (i : Int) : readInt (encInt i) = some i := by
  unfold encInt readInt
  by_cases h : i < 0
  · rw [if_pos h]
    show (if (1 : Nat) = 1 then some (-(i.natAbs : Int)) else _) = some i
    rw [if_pos rfl]
    congr 1
    omega
  · rw [if_neg h]
    show (if (0 : Nat) = 1 then _ else if (0 : Nat) = 0 then some ((i.natAbs : Int)) else _) = some i
    rw [if_neg (by omega), if_pos rfl]
    congr 1
    omega

theorem deserialize_serialize (d : SessionData) :
    deserializeSession (serializeSession d) = some d := by
  unfold deserializeSession serializeSession
  rw [List.append_assoc, List.append_assoc, List.append_assoc]
  rw [readField_encField]
  simp only [Option.bind_eq_bind, Option.some_bind]
  rw [readField_encField]
  simp only [Option.some_bind]
  rw [readField_encField]
  simp only [Option.some_bind]
  rw [readField_encField]
  simp only [Option.some_bind]
  rw [readInt_encInt]
  rfl

theorem openCookie_sealCookie (key : GoStr) (payload : List Nat) :
    openCookie key (sealCookie key payload) = some payload := by
  unfold openCookie sealCookie
  simp

theorem sumBytes_set (l : List Nat) (i : Nat) (b : Nat) (h : i < l.length) :
    sumBytes (l.set i b) + l[i] = sumBytes l + b := by
  induction l generalizing i with
  | nil => simp at h
  | cons a t ih =>
    cases i with
    | zero => simp [sumBytes]; omega
    | succ j =>
      have hj : j < t.length := by simpa using h
      have := ih j hj
      simp only [List.set_cons_succ, sumBytes, List.getElem_cons_succ]
      omega

/-- Any single modified byte of a sealed cookie breaks authentication. -/
theorem openCookie_set_ne (key : GoStr) (payload : List Nat) (i b : Nat)
    (hi : i < (sealCookie key payload).length)
    (hb : b ≠ (sealCookie key payload)[i]) :
    openCookie key ((sealCookie key payload).set i b) = none := by
  have hlen : (sealCookie key payload).length = payload.length + 1 := by
    simp [sealCookie]
  by_cases hip : i < payload.length
  · have hidx : (sealCookie key payload)[i] = payload[i] := by
      show (payload ++ [macTag key payload])[i] = payload[i]
      exact List.getElem_append_left hip
    rw [hidx] at hb
    show openCookie key ((payload ++ [macTag key payload]).set i b) = none
    rw [List.set_append_left i b hip]
    unfold openCookie
    rw [List.reverse_append]
    simp only [List.reverse_cons, List.reverse_nil, List.nil_append, List.singleton_append,
      List.reverse_reverse]
    rw [if_neg]
    intro he
    have hsum := sumBytes_set payload i b hip
    unfold macTag at he
    have : payload[i] = b := by omega
    exact hb this.symm
  · have hieq : i = payload.length := by omega
    have hidx : (sealCookie key payload)[i] = macTag key payload := by
      show (payload ++ [macTag key payload])[i] = macTag key payload
      exact List.getElem_concat_length payload _ i hieq (by simpa [sealCookie] using hi)
    rw [hidx] at hb
    show openCookie key ((payload ++ [macTag key payload]).set i b) = none
    rw [List.set_append_right i b (by omega)]
    have h0 : i - payload.length = 0 := by omega
    rw [h0]
    show openCookie key (payload ++ [b]) = none
    unfold openCookie
    rw [List.reverse_append]
    simp only [List.reverse_cons, List.reverse_nil, List.nil_append, List.singleton_append,
      List.reverse_reverse]
    rw [if_neg]
    exact hb

/-- C10: the expiry stored inside an issued cookie is always
`now + maxAge`; issuance is entirely independent of the `ExpiresAt` the
caller supplied (such as the OAuth token expiry the callback handler places
in the payload). -/
theorem setSession_overwrites_expiry (cs : CookieStore) (now : Int) (d e : SessionData)
    (uid sub email name : GoStr) (tokExp1 tokExp2 : Int)
    (huid : d.userID = e.userID) (hsub : d.auth0UserID = e.auth0UserID)
    (hem : d.email = e.email) (hnm : d.name = e.name) :
    (SetSession cs now d).1.expiresAt = now + cs.maxAge ∧
      SetSession cs now d = SetSession cs now e ∧
      SetSession cs now (callbackSessionData uid sub email name tokExp1) =
        SetSession cs now (callbackSessionData uid sub email name tokExp2) ∧
      (SetSession cs now (callbackSessionData uid sub email name tokExp1)).1.expiresAt =
        now + cs.maxAge := by
  refine ⟨rfl, ?_, rfl, rfl⟩
  cases d
  cases e
  simp_all [SetSession]

/-- C10 witness: two payloads that differ only in ExpiresAt (999 vs -5)
issue identically, with stored expiry 0 + 86400. -/
theorem setSession_overwrites_expiry_witness :
    (SetSession testStore 0 testPayload).1.expiresAt = 0 + 86400 ∧
      SetSession testStore 0 testPayload =
        SetSession testStore 0 ⟨[117], [115], [101], [110], -5⟩ ∧
      SetSession testStore 0 (callbackSessionData [117] [115] [101] [110] 999) =
        SetSession testStore 0 (callbackSessionData [117] [115] [101] [110] 12345) ∧
      (SetSession testStore 0 (callbackSessionData [117] [115] [101] [110] 999)).1.expiresAt =
        0 + 86400 :=
  setSession_overwrites_expiry testStore 0 testPayload ⟨[117], [115], [101], [110], -5⟩
    [117] [115] [101] [110] 999 12345 rfl rfl rfl rfl

/-- C3 counterexample: at the concrete payload with caller-supplied
ExpiresAt 999, validation before expiry returns a payload whose ExpiresAt
was rewritten to issuance + TTL (so not the payload unchanged), and at
current time exactly equal to the stored expiry the session is still
accepted even though `now < expiry` fails. -/
theorem sessionRoundTrip_counterexample :
    GetSession testStore 0 (some (SetSession testStore 0 testPayload).2) =
      .ok { testPayload with expiresAt := 86400 } ∧
    ({ testPayload with expiresAt := 86400 } : SessionData) ≠ testPayload ∧
    GetSession testStore 86400 (some (SetSession testStore 0 testPayload).2) =
      .ok { testPayload with expiresAt := 86400 } ∧
    ¬((86400 : Int) < 86400) := by
  refine ⟨rfl, by decide, rfl, by omega⟩

/-- C3 (amended): validating an issued cookie at or before the stored
expiry returns the stored payload — all fields of the input payload
unchanged except ExpiresAt, which is rewritten at issuance to
issuance time + TTL; validation strictly after the stored expiry fails
with the Expired error; flipping any byte of the cookie value fails with
the decode error; and validation succeeds iff the cookie authenticates
under the configured secret and current time ≤ stored expiry. -/
theorem session_roundTrip (cs : CookieStore) (p : SessionData) (tIssue tVal : Int) :
    (tVal ≤ tIssue + cs.maxAge →
      GetSession cs tVal (some (SetSession cs tIssue p).2) = .ok (SetSession cs tIssue p).1 ∧
      (SetSession cs tIssue p).1.userID = p.userID ∧
      (SetSession cs tIssue p).1.auth0UserID = p.auth0UserID ∧
      (SetSession cs tIssue p).1.email = p.email ∧
      (SetSession cs tIssue p).1.name = p.name ∧
      (SetSession cs tIssue p).1.expiresAt = tIssue + cs.maxAge) ∧
    (tIssue + cs.maxAge < tVal →
      GetSession cs tVal (some (SetSession cs tIssue p).2) = .error .expired) ∧
    (∀ (i b : Nat) (hi : i < (SetSession cs tIssue p).2.length)
      (hb : b ≠ (SetSession cs tIssue p).2[i]),
      GetSession cs tVal (some ((SetSession cs tIssue p).2.set i b)) = .error .decodeError) ∧
    (∀ v : List Nat, (∃ d, GetSession cs tVal (some v) = .ok d) ↔
      (∃ d, (openCookie cs.secretKey v).bind deserializeSession = some d ∧
        tVal ≤ d.expiresAt)) := by
  have hdec : (openCookie cs.secretKey (SetSession cs tIssue p).2).bind deserializeSession =
      some { p with expiresAt := tIssue + cs.maxAge } := by
    show (openCookie cs.secretKey
      (sealCookie cs.secretKey (serializeSession { p with expiresAt := tIssue + cs.maxAge }))).bind
        deserializeSession = _
    rw [openCookie_sealCookie, Option.some_bind, deserialize_serialize]
  refine ⟨fun hle => ?_, fun hgt => ?_, fun i b hi hb => ?_, fun v => ?_⟩
  · refine ⟨?_, rfl, rfl, rfl, rfl, rfl⟩
    show (match (openCookie cs.secretKey (SetSession cs tIssue p).2).bind deserializeSession with
      | none => Except.error SessErr.decodeError
      | some data =>
        if tVal > data.expiresAt then Except.error SessErr.expired else Except.ok data) =
      Except.ok (SetSession cs tIssue p).1
    rw [hdec]
    have hc : ¬ tVal > ({ p with expiresAt := tIssue + cs.maxAge } : SessionData).expiresAt := by
      show ¬ tVal > tIssue + cs.maxAge
      omega
    exact if_neg hc
  · show (match (openCookie cs.secretKey (SetSession cs tIssue p).2).bind deserializeSession with
      | none => Except.error SessErr.decodeError
      | some data =>
        if tVal > data.expiresAt then Except.error SessErr.expired else Except.ok data) =
      Except.error SessErr.expired
    rw [hdec]
    have hc : tVal > ({ p with expiresAt := tIssue + cs.maxAge } : SessionData).expiresAt := by
      show tVal > tIssue + cs.maxAge
      omega
    exact if_pos hc
  · have hi2 : i < (sealCookie cs.secretKey
        (serializeSession { p with expiresAt := tIssue + cs.maxAge })).length := hi
    have hb2 : b ≠ (sealCookie cs.secretKey
        (serializeSession { p with expiresAt := tIssue + cs.maxAge }))[i] := hb
    have hopen : openCookie cs.secretKey ((SetSession cs tIssue p).2.set i b) = none :=
      openCookie_set_ne cs.secretKey
        (serializeSession { p with expiresAt := tIssue + cs.maxAge }) i b hi2 hb2
    show (match (openCookie cs.secretKey ((SetSession cs tIssue p).2.set i b)).bind
        deserializeSession with
      | none => Except.error SessErr.decodeError
      | some data =>
        if tVal > data.expiresAt then Except.error SessErr.expired else Except.ok data) =
      Except.error SessErr.decodeError
    rw [hopen]
    rfl
  · show (∃ d, (match (openCookie cs.secretKey v).bind deserializeSession with
      | none => Except.error SessErr.decodeError
      | some data =>
        if tVal > data.expiresAt then Except.error SessErr.expired else Except.ok data) =
      Except.ok d) ↔ _
    cases hv : (openCookie cs.secretKey v).bind deserializeSession with
    | none => simp
    | some d =>
      simp only [Option.some_inj]
      constructor
      · rintro ⟨w, hw⟩
        by_cases hexp : tVal > d.expiresAt
        · rw [if_pos hexp] at hw
          exact absurd hw (by simp)
        · exact ⟨d, rfl, by omega⟩
      · rintro ⟨w, hw, hwe⟩
        cases hw
        exact ⟨d, if_neg (by omega)⟩

/-- C3 witness: applying the round-trip theorem at the fixed store,
payload, issuance 0, validation times 100 and 90000, and a flip of cookie
byte 0 to 999. -/
theorem session_roundTrip_witness :
    GetSession testStore 100 (some (SetSession testStore 0 testPayload).2) =
      .ok (SetSession testStore 0 testPayload).1 ∧
    GetSession testStore 90000 (some (SetSession testStore 0 testPayload).2) =
      .error .expired ∧
    GetSession testStore 100 (some ((SetSession testStore 0 testPayload).2.set 0 999)) =
      .error .decodeError := by
  have h1 := session_roundTrip testStore testPayload 0 100
  have h2 := session_roundTrip testStore testPayload 0 90000
  exact ⟨(h1.1 (by decide)).1, h2.2.1 (by decide),
    h1.2.2.1 0 999 (by decide) (by decide)⟩

/-- C5: `NewCookieStore` succeeds iff the configured `SESSION_SECRET`
is exactly 32 bytes; on any other length construction fails with a
configuration error and, per the startup sequence in main.go, the process
never starts serving requests. -/
theorem newCookieStore_failFast (env : Env) :
    ((∃ cs, NewCookieStore env = .ok cs) ↔ (env evSecret).length = 32) ∧
    (startupServes env = true ↔ (env evSecret).length = 32) := by
  unfold startupServes NewCookieStore
  by_cases h0 : env evSecret = []
  · rw [h0]
    simp
  · by_cases h1 : (env evSecret).length = 32
    · simp [h0, h1]
    · simp [h0, h1]

/-- C5 witness: a 32-byte secret constructs, a 31-byte secret does not and
the server never serves. -/
theorem newCookieStore_failFast_witness :
    (∃ cs, NewCookieStore env32 = .ok cs) ∧
      ¬(∃ cs, NewCookieStore env31 = .ok cs) ∧
      startupServes env31 = false := by
  have h32 := newCookieStore_failFast env32
  have h31 := newCookieStore_failFast env31
  have hl32 : (env32 evSecret).length = 32 := by decide
  have hl31 : (env31 evSecret).length = 31 := by decide
  refine ⟨h32.1.mpr hl32, fun hex => ?_, ?_⟩
  · have h2 := h31.1.mp hex
    rw [hl31] at h2
    exact absurd h2 (by decide)
  · cases hs : startupServes env31 with
    | false => rfl
    | true =>
      have h2 := h31.2.mp hs
      rw [hl31] at h2
      exact absurd h2 (by decide)

/-- C1 evaluation at the failing input: storage holds only the unlinked
user with email a@example.com, and the claims carry a new subject id for the
same email.  The wired reconciliation path (`RegisterOrUpdateUserFromAuth`)
never consults the email index: it goes straight to creating a brand-new
user, which the email unique index of the schema rejects — the existing user is
never linked and no `EmailVerified` event is emitted on it. -/
theorem registerOrUpdate_unlinked_email_divergence :
    RegisterOrUpdateUserFromAuth pgRepo [unlinkedAlice] c1Cmd 5 [117,50] =
      .error (.repo .uniqueViolation) ∧
    unlinkedAlice.auth0UserID = [] ∧
    unlinkedAlice.email = aliceEmailStr ∧
    NewEmail c1Cmd.email = .ok aliceEmailStr :=
  ⟨rfl, rfl, rfl, rfl⟩

/-- Supporting: on any repository state where the subject id is unknown and
the save succeeds, the service-layer reconciliation returns a freshly
created user carrying `newId` — never an existing user found by email. -/
theorem registerOrUpdate_always_creates_on_subject_miss {σ : Type}
    (repo : UserRepo σ) (st : σ) (cmd : RegisterFromAuthCommand)
    (now : Int) (newId : GoStr) (em : GoStr) (st2 : σ)
    (hnf : repo.findByAuth0UserID st cmd.auth0UserID = .error .userNotFound)
    (hem : NewEmail cmd.email = .ok em)
    (hsv : repo.save st (NewUser now newId cmd.auth0UserID em cmd.name cmd.emailVerified) =
      .ok st2) :
    RegisterOrUpdateUserFromAuth repo st cmd now newId =
      .ok (NewUser now newId cmd.auth0UserID em cmd.name cmd.emailVerified, st2) := by
  unfold RegisterOrUpdateUserFromAuth
  rw [hnf]
  show (if (RepoErr.userNotFound ≠ RepoErr.userNotFound) then _ else _) = _
  rw [if_neg (by simp)]
  rw [hem]
  show (match repo.save st (NewUser now newId cmd.auth0UserID em cmd.name cmd.emailVerified) with
    | .error e2 => Except.error (ServiceErr.repo e2)
    | .ok st3 =>
      Except.ok (NewUser now newId cmd.auth0UserID em cmd.name cmd.emailVerified, st3)) = _
  rw [hsv]

/-- Supporting: the legacy reconciliation (unnamed/part_013, the
implementation that rule 2 of the spec describes) does link an unlinked
email-matching user: same id, subject id attached, verification carried
from the claims, and exactly one EmailVerified event on the result. -/
theorem legacy_reconciliation_links_by_email {σ : Type} (repo : VRepo σ) (st : σ)
    (claims : Claims) (now : Int) (newId : GoStr) (p : ProvisionalUser) (em : GoStr)
    (hnf : repo.findByAuth0UserID st claims.sub = .error .userNotFound)
    (hem : NewEmail claims.email = .ok em)
    (hfe : repo.findByEmail st em = .ok (.provisional p))
    (hev : p.events = [])
    (hsave : ∀ u, ∃ st2, repo.save st u = .ok st2) :
    ∃ (a : ActiveUser) (st2 : σ),
      createOrUpdateUserLegacy repo st claims now newId = .ok (.active a, st2) ∧
      a.id = p.id ∧ a.auth0UserID = claims.sub ∧
      a.emailVerified = claims.emailVerified ∧
      countEmailVerified a.events = 1 := by
  unfold createOrUpdateUserLegacy
  simp only [hnf, hem, hfe]
  set a := ActivateUser p claims.sub claims.name claims.emailVerified now with ha
  set a2 := if claims.picture ≠ []
    then a.updateProfileA now claims.name [] claims.picture else a with ha2
  obtain ⟨st2, hst2⟩ := hsave (.active a2)
  rw [hst2]
  refine ⟨a2, st2, rfl, ?_, ?_, ?_, ?_⟩ <;>
    · rw [ha2]
      by_cases hp : claims.picture ≠ [] <;>
        simp [hp, ActiveUser.updateProfileA, ha, ActivateUser, countEmailVerified, hev]

/-- C2 counterexample: claims with the same display name but a different
picture URL — the reconciliation returns the stored user unchanged, so the
differing picture field is NOT updated. -/
theorem createOrUpdateUser_stale_picture :
    createOrUpdateUser pgRepo [linkedAlice] c2Claims 5 [117,57] =
      .ok (linkedAlice, [linkedAlice]) ∧
    linkedAlice.profile.profileImageURL ≠ c2Claims.picture :=
  ⟨rfl, by decide⟩

/-- C2 (amended): when a user linked to the subject id of the claims is stored
(and the DB unique-index invariant holds), reconciliation returns that user
(same id, same subject id, same email, no new record: the table length is
unchanged and the result is stored in place); the profile is updated only
when the display name differs — then displayName and picture are set from
the claims and the bio kept — and emailVerified is set when the claims
newly assert it. -/
theorem createOrUpdateUser_linked (t : PgTable) (claims : Claims) (u : User)
    (now : Int) (newId : GoStr)
    (hfind : pgFindByAuth0UserID t claims.sub = .ok u)
    (hnoconf : ∀ r ∈ t, r.id ≠ u.id → r.email ≠ u.email ∧ r.auth0UserID ≠ u.auth0UserID) :
    ∃ v st2, createOrUpdateUser pgRepo t claims now newId = .ok (v, st2) ∧
      v.id = u.id ∧ v.auth0UserID = u.auth0UserID ∧ v.email = u.email ∧
      v.profile = (if u.profile.displayName ≠ claims.name
        then ⟨claims.name, u.profile.bio, claims.picture⟩ else u.profile) ∧
      v.emailVerified = (u.emailVerified || claims.emailVerified) ∧
      st2.length = t.length ∧ v ∈ st2 := by
  have hfind0 := hfind
  unfold pgFindByAuth0UserID at hfind0
  cases hrow : t.find? (fun r => decide (r.auth0UserID = claims.sub)) with
  | none => rw [hrow] at hfind0; exact absurd hfind0 (by simp)
  | some row =>
    rw [hrow] at hfind0
    have hu : u = fromSnapshotRow row := by
      cases hfind0
      rfl
    have hmem : row ∈ t := List.mem_of_find?_eq_some hrow
    have hrowid : row.id = u.id := by rw [hu]; rfl
    -- the updated user
    set u1 := if u.profile.displayName ≠ claims.name
      then UpdateProfile u now claims.name u.profile.bio claims.picture else u with hu1
    set u2 := if claims.emailVerified && ¬ u.emailVerified
      then VerifyEmail u1 now else u1 with hu2
    have hfields : u2.id = u.id ∧ u2.auth0UserID = u.auth0UserID ∧ u2.email = u.email ∧
        u2.profile = (if u.profile.displayName ≠ claims.name
          then ⟨claims.name, u.profile.bio, claims.picture⟩ else u.profile) ∧
        u2.emailVerified = (u.emailVerified || claims.emailVerified) := by
      rw [hu2, hu1]
      by_cases hn : u.profile.displayName ≠ claims.name <;>
        by_cases hv : claims.emailVerified && ¬ u.emailVerified <;>
          simp [hn, hv, UpdateProfile, VerifyEmail] <;>
            (cases hcv : claims.emailVerified <;> simp_all)
    obtain ⟨hid, hsub, hemail, hprof, hver⟩ := hfields
    have hsave : pgSave t u2 = .ok (t.map (fun r => if r.id = u2.id then u2 else r)) := by
      unfold pgSave
      rw [if_neg, if_pos]
      · rw [List.any_eq_true]
        exact ⟨row, hmem, by simp [hrowid, hid]⟩
      · rw [Bool.not_eq_true, List.any_eq_false]
        intro r hr
        by_cases hrid : r.id = u.id
        · simp [hrid, hid]
        · have hc := hnoconf r hr hrid
          simp [hid, hemail, hsub, hrid, hc.1, hc.2]
    refine ⟨u2, t.map (fun r => if r.id = u2.id then u2 else r), ?_, hid, hsub, hemail,
      hprof, hver, by simp, ?_⟩
    · simp only [createOrUpdateUser, pgRepo, hfind]
      rw [← hu1, ← hu2, hsave]
    · apply List.mem_map.mpr
      exact ⟨row, hmem, by rw [hrowid, hid]; simp⟩

/-- C2 witness: concrete single-row table, claims with a differing display
name. -/
theorem createOrUpdateUser_linked_witness :
    ∃ v st2, createOrUpdateUser pgRepo [linkedAlice] c2bClaims 5 [117,57] = .ok (v, st2) ∧
      v.id = linkedAlice.id ∧ v.auth0UserID = linkedAlice.auth0UserID ∧
      v.email = linkedAlice.email ∧
      v.profile = (if linkedAlice.profile.displayName ≠ c2bClaims.name
        then ⟨c2bClaims.name, linkedAlice.profile.bio, c2bClaims.picture⟩
        else linkedAlice.profile) ∧
      v.emailVerified = (linkedAlice.emailVerified || c2bClaims.emailVerified) ∧
      st2.length = [linkedAlice].length ∧ v ∈ st2 :=
  createOrUpdateUser_linked [linkedAlice] c2bClaims linkedAlice 5 [117,57] rfl (by decide)

/-- C6 counterexample: the in-memory Save accepts a second, distinct user
with an already-stored email — no uniqueness violation is raised (Save has
no error path at all) and the store then holds both users with the same
email. -/
theorem memSave_accepts_duplicate_email :
    assocGet [117,49] (memSave (memSave ⟨[], []⟩ unlinkedAlice) dupBob).users =
      some unlinkedAlice ∧
    assocGet [117,50] (memSave (memSave ⟨[], []⟩ unlinkedAlice) dupBob).users =
      some dupBob ∧
    unlinkedAlice.id ≠ dupBob.id ∧ unlinkedAlice.email = dupBob.email :=
  ⟨rfl, rfl, by decide, rfl⟩

theorem assocGet_set_same {α : Type} (k : GoStr) (v : α) (l : List (GoStr × α)) :
    assocGet k (assocSet k v l) = some v := by
  induction l with
  | nil => simp [assocSet, assocGet]
  | cons kv rest ih =>
    obtain ⟨k2, v2⟩ := kv
    unfold assocSet
    by_cases h : k2 = k
    · rw [if_pos h]
      simp [assocGet]
    · rw [if_neg h]
      unfold assocGet
      rw [if_neg h]
      exact ih

theorem assocGet_set_ne {α : Type} (k k2 : GoStr) (v : α) (l : List (GoStr × α))
    (h : k ≠ k2) : assocGet k (assocSet k2 v l) = assocGet k l := by
  induction l with
  | nil =>
    unfold assocSet assocGet
    rw [if_neg (fun he => h he.symm)]
    rfl
  | cons kv rest ih =>
    obtain ⟨k3, v3⟩ := kv
    unfold assocSet
    by_cases h3 : k3 = k2
    · rw [if_pos h3]
      unfold assocGet
      rw [if_neg (fun he => h he.symm), if_neg (fun he => h (he.symm.trans h3))]
    · rw [if_neg h3]
      unfold assocGet
      by_cases h4 : k3 = k
      · rw [if_pos h4, if_pos h4]
      · rw [if_neg h4, if_neg h4]
        exact ih

/-- C6 (amended): the in-memory Save never rejects a duplicate email: both
user records end up stored under their ids, the email index is repointed to
the most recently saved user, and FindByEmail afterwards returns that newer
user.  (Email uniqueness is declared only in the SQL schema, whose unique
index the Postgres save surfaces as a violation.) -/
theorem memSave_overwrites_email_index (st : MemRepoState) (u1 u2 : User)
    (hid : u1.id ≠ u2.id) (hem : u1.email = u2.email) :
    assocGet u1.id (memSave (memSave st u1) u2).users = some u1 ∧
    assocGet u2.id (memSave (memSave st u1) u2).users = some u2 ∧
    memFindByEmail (memSave (memSave st u1) u2) u1.email = .ok u2 := by
  refine ⟨?_, ?_, ?_⟩
  · show assocGet u1.id (assocSet u2.id u2 (assocSet u1.id u1 st.users)) = some u1
    rw [assocGet_set_ne _ _ _ _ hid, assocGet_set_same]
  · show assocGet u2.id (assocSet u2.id u2 (assocSet u1.id u1 st.users)) = some u2
    rw [assocGet_set_same]
  · unfold memFindByEmail
    show (match assocGet u1.email (assocSet u2.email u2.id
        (assocSet u1.email u1.id st.emails)) with
      | none => Except.error RepoErr.userNotFound
      | some userID =>
        match assocGet userID (assocSet u2.id u2 (assocSet u1.id u1 st.users)) with
        | none => Except.error RepoErr.userNotFound
        | some user => Except.ok user) = Except.ok u2
    rw [hem, assocGet_set_same]
    show (match assocGet u2.id (assocSet u2.id u2 (assocSet u1.id u1 st.users)) with
      | none => Except.error RepoErr.userNotFound
      | some user => Except.ok user) = Except.ok u2
    rw [assocGet_set_same]

/-- C6 witness: the amended behavior at the concrete pair of users. -/
theorem memSave_overwrites_email_index_witness :
    assocGet unlinkedAlice.id
      (memSave (memSave ⟨[], []⟩ unlinkedAlice) dupBob).users = some unlinkedAlice ∧
    assocGet dupBob.id
      (memSave (memSave ⟨[], []⟩ unlinkedAlice) dupBob).users = some dupBob ∧
    memFindByEmail (memSave (memSave ⟨[], []⟩ unlinkedAlice) dupBob)
      unlinkedAlice.email = .ok dupBob :=
  memSave_overwrites_email_index ⟨[], []⟩ unlinkedAlice dupBob (by decide) rfl

/-- C4 evaluation: the login state is one constant shared by all requests,
and the callback outcome is invariant under arbitrary changes of the
returned state — there is no equality check against a stored per-request
value. -/
theorem state_constant_callback_ignores_state (cfg : OAuth2Config)
    (r1 r2 : RequestInfo) (q1 q2 : CallbackQuery)
    (hcode : q1.code = q2.code) (herr : q1.errorParam = q2.errorParam)
    (hdesc : q1.errorDescription = q2.errorDescription) :
    (SignIn cfg r1).state = stateLiteral ∧
    (SignIn cfg r1).state = (SignIn cfg r2).state ∧
    CallbackDecision q1 = CallbackDecision q2 := by
  refine ⟨rfl, rfl, ?_⟩
  unfold CallbackDecision
  rw [hcode, herr, hdesc]

/-- C4 witness: two different requests, and two callback queries that agree
on code and error but carry completely different state values. -/
theorem state_constant_callback_ignores_state_witness :
    (SignIn cfg0 ⟨[117,97,49], [49]⟩).state = stateLiteral ∧
    (SignIn cfg0 ⟨[117,97,49], [49]⟩).state = (SignIn cfg0 ⟨[117,97,50], [50]⟩).state ∧
    CallbackDecision ⟨[99], stateLiteral, [], []⟩ =
      CallbackDecision ⟨[99], [101,118,105,108], [], []⟩ :=
  state_constant_callback_ignores_state cfg0 ⟨[117,97,49], [49]⟩ ⟨[117,97,50], [50]⟩
    ⟨[99], stateLiteral, [], []⟩ ⟨[99], [101,118,105,108], [], []⟩ rfl rfl rfl
end ZenConnect
